import Mathlib

/-
Verification of the classy reactor/executor bridge (PDK async runtime).

The definitions below are a shallow embedding of the Rust sources:
  classy/src/event.rs          (stage tags, Exchange, ExchangeFuture)
  classy/src/reactor/http.rs   (per-exchange reactor)
  classy/src/reactor/root.rs   (per-instance reactor)
  classy/src/client.rs         (outbound-call Request future)
  classy/src/context/root.rs   (instance adapter, create_http_context)
  classy/src/context/error.rs  (synthetic error context)

Modelling conventions:
  - RefCell wrappers are flattened: the Raw* structure carries the state and
    every method is a pure function from state to state.
  - Wakers are values of an abstract type W; waking is modelled by returning
    the list of wakers that Waker.wake_by_ref was called on.  Waker.will_wake
    is modelled by a BEq instance on W.
  - BTreeMap is modelled as an association list with unique keys (mapInsert
    replaces, mapErase deletes, mapLookup finds).
  - Boxed extractor closures are stored as Lean functions
    HttpCallResponse -> C for an abstract content type C (Box of dyn Any).
  - Host side effects (send_http_response, resume_http_request, ...) are
    modelled by returning HostCall values.
  - A Rust panic reachable in a modelled function (an expect on a missing
    value) is an explicit constructor of the result type.
-/

namespace Classy

universe u v

/-- Association-list model of BTreeMap lookup: BTreeMap.get. -/
def mapLookup {K : Type u} {V : Type v} [DecidableEq K] (k : K) :
    List (K × V) → Option V
  | [] => none
  | p :: rest => if p.1 = k then some p.2 else mapLookup k rest

/-- Association-list model of BTreeMap removal: BTreeMap.remove (state part). -/
def mapErase {K : Type u} {V : Type v} [DecidableEq K] (k : K) :
    List (K × V) → List (K × V)
  | [] => []
  | p :: rest => if p.1 = k then mapErase k rest else p :: mapErase k rest

/-- Association-list model of BTreeMap.insert: replaces any binding of k. -/
def mapInsert {K : Type u} {V : Type v} [DecidableEq K] (k : K) (v : V)
    (m : List (K × V)) : List (K × V) :=
  (k, v) :: mapErase k m

theorem mapLookup_insert_self {K : Type u} {V : Type v} [DecidableEq K]
    (k : K) (v : V) (m : List (K × V)) : mapLookup k (mapInsert k v m) = some v := by
  simp [mapInsert, mapLookup]

theorem mapLookup_erase_self {K : Type u} {V : Type v} [DecidableEq K]
    (k : K) (m : List (K × V)) : mapLookup k (mapErase k m) = none := by
  induction m with
  | nil => rfl
  | cons p rest ih =>
      by_cases h : p.1 = k
      · simp [mapErase, h, ih]
      · simp [mapErase, mapLookup, h, ih]

theorem mapLookup_insert_ne {K : Type u} {V : Type v} [DecidableEq K]
    (k k' : K) (v : V) (m : List (K × V)) (h : k' ≠ k) :
    mapLookup k (mapInsert k' v m) = mapLookup k m := by
  have herase : mapLookup k (mapErase k' m) = mapLookup k m := by
    induction m with
    | nil => rfl
    | cons p rest ih =>
        by_cases hp : p.1 = k'
        · simp [mapErase, mapLookup, hp, h, Ne.symm h, ih]
        · by_cases hk : p.1 = k
          · simp [mapErase, mapLookup, hp, hk, h, Ne.symm h]
          · simp [mapErase, mapLookup, hp, hk, ih]
  simp [mapInsert, mapLookup, h, Ne.symm h, herase]

/-- EventKind from classy/src/event.rs: the totally ordered stage tags. -/
inductive EventKind
  | Start
  | RequestHeaders
  | RequestBody
  | RequestTrailers
  | ResponseHeaders
  | ResponseBody
  | ResponseTrailers
  | ExchangeComplete
deriving DecidableEq, Repr, Fintype

/-- Declared order rank: the Rust Ord instance casts the discriminant to i32. -/
def EventKind.rank : EventKind → Nat
  | .Start => 0
  | .RequestHeaders => 1
  | .RequestBody => 2
  | .RequestTrailers => 3
  | .ResponseHeaders => 4
  | .ResponseBody => 5
  | .ResponseTrailers => 6
  | .ExchangeComplete => 7

/-- ExchangePhase from classy/src/reactor/http.rs. -/
inductive ExchangePhase
  | Request
  | Response
deriving DecidableEq, Repr

/-- HttpReactor.phase: the phase implied by an event kind. -/
def phaseOf : EventKind → ExchangePhase
  | .Start | .RequestHeaders | .RequestBody | .RequestTrailers => .Request
  | .ResponseHeaders | .ResponseBody | .ResponseTrailers | .ExchangeComplete => .Response

/-- RawHttpReactor from classy/src/reactor/http.rs, with the RefCell wrapper
of HttpReactor flattened away.  id_generator holds WakerIdGenerator.last_id;
WakerId is modelled as Nat. -/
structure RawHttpReactor (W : Type u) where
  id_generator : Nat
  cancelled_request : Bool
  paused_request : Bool
  paused_response : Bool
  current_event : EventKind
  wakers : List ((EventKind × Nat) × W)

namespace RawHttpReactor

variable {W : Type u}

/-- HttpReactor.new: the initial per-exchange reactor state. -/
def new : RawHttpReactor W :=
  { id_generator := 0
    cancelled_request := false
    paused_request := false
    paused_response := false
    current_event := EventKind.Start
    wakers := [] }

/-- RawHttpReactor.notify: set the current event and wake (by reference,
without removing) every waker registered for exactly that event.  Returns the
new state and the list of woken wakers. -/
def notify (r : RawHttpReactor W) (e : EventKind) : RawHttpReactor W × List W :=
  ({ r with current_event := e },
   (r.wakers.filter (fun p => p.1.1 = e)).map (fun p => p.2))

/-- RawHttpReactor.insert_waker: generate a fresh id and store the waker under
(event, id).  Returns the new state and the generated id. -/
def insert_waker (r : RawHttpReactor W) (e : EventKind) (w : W) :
    RawHttpReactor W × Nat :=
  ({ r with id_generator := r.id_generator + 1
            wakers := mapInsert (e, r.id_generator) w r.wakers },
   r.id_generator)

/-- RawHttpReactor.remove_waker. -/
def remove_waker (r : RawHttpReactor W) (e : EventKind) (id : Nat) :
    RawHttpReactor W :=
  { r with wakers := mapErase (e, id) r.wakers }

/-- HttpReactor.phase: Request for Start..RequestTrailers, Response after. -/
def phase (r : RawHttpReactor W) : ExchangePhase :=
  phaseOf r.current_event

/-- HttpReactor.paused: read the pause flag of the current phase. -/
def paused (r : RawHttpReactor W) : Bool :=
  match r.phase with
  | .Request => r.paused_request
  | .Response => r.paused_response

/-- HttpReactor.set_paused: write the pause flag of the current phase. -/
def set_paused (r : RawHttpReactor W) (b : Bool) : RawHttpReactor W :=
  match r.phase with
  | .Request => { r with paused_request := b }
  | .Response => { r with paused_response := b }

/-- HttpReactor.cancel_request. -/
def cancel_request (r : RawHttpReactor W) : RawHttpReactor W :=
  { r with cancelled_request := true }

end RawHttpReactor

/-- The After trait relation of classy/src/event.rs: afterDecl b a holds iff
the source declares impl After of a for b.  Enumerated from the declared
impls (note ExchangeComplete is only declared After Start). -/
def afterDecl (b a : EventKind) : Bool :=
  match b, a with
  | .RequestHeaders, .Start => true
  | .RequestBody, .Start => true
  | .RequestBody, .RequestHeaders => true
  | .RequestTrailers, .Start => true
  | .RequestTrailers, .RequestHeaders => true
  | .RequestTrailers, .RequestBody => true
  | .ResponseHeaders, .Start => true
  | .ResponseHeaders, .RequestHeaders => true
  | .ResponseHeaders, .RequestBody => true
  | .ResponseHeaders, .RequestTrailers => true
  | .ResponseBody, .Start => true
  | .ResponseBody, .RequestHeaders => true
  | .ResponseBody, .RequestBody => true
  | .ResponseBody, .RequestTrailers => true
  | .ResponseBody, .ResponseHeaders => true
  | .ResponseTrailers, .Start => true
  | .ResponseTrailers, .RequestHeaders => true
  | .ResponseTrailers, .RequestBody => true
  | .ResponseTrailers, .RequestTrailers => true
  | .ResponseTrailers, .ResponseHeaders => true
  | .ResponseTrailers, .ResponseBody => true
  | .ExchangeComplete, .Start => true
  | _, _ => false

/-- The Before trait of classy/src/event.rs: the blanket impl makes
beforeDecl a b hold iff afterDecl b a. -/
def beforeDecl (a b : EventKind) : Bool :=
  afterDecl b a

/-- The trait bound of Exchange.send_response in classy/src/event.rs:
S must satisfy After of Start and Before of ResponseHeaders. -/
def sendResponseCallable (s : EventKind) : Bool :=
  afterDecl s .Start && beforeDecl s .ResponseHeaders

/-- Host side effects performed by the modelled functions.  Bodies are byte
lists, headers are name/value string pairs. -/
inductive HostCall
  | resume_http_request
  | resume_http_response
  | send_http_response (status : Nat) (headers : List (String × String))
      (body : Option (List Nat))
deriving DecidableEq, Repr

namespace Exchange

variable {W : Type u}

/-- Exchange.event_data from classy/src/event.rs: populated exactly when the
reactor currently sits at the stage S of the Exchange value.  The EventData
payload is a borrow of the exchange, carried here as Unit. -/
def event_data (s : EventKind) (r : RawHttpReactor W) : Option Unit :=
  if r.current_event = s then some () else none

/-- Exchange.send_response from classy/src/event.rs: sets the pause flag of
the current phase, sets the cancelled flag, and sends the synthetic response
through the host. -/
def send_response (r : RawHttpReactor W) (status : Nat)
    (headers : List (String × String)) (body : Option (List Nat)) :
    RawHttpReactor W × HostCall :=
  (((r.set_paused true).cancel_request),
   HostCall.send_http_response status headers body)

end Exchange

/-- The result tag of a Future poll. -/
inductive FuturePoll
  | Ready
  | Pending
deriving DecidableEq, Repr

/-- ExchangeFuture poll from classy/src/event.rs.  The future awaits stage s
and its mutable state is id_and_waker : Option (WakerId x Waker); cw is the
waker of the polling context.  Returns the poll result, the updated reactor,
the updated id_and_waker field, and the host calls made.  On Ready the output
value is Exchange of s over the same reactor, so it carries no extra data
here. -/
def ExchangeFuture.poll [BEq W] (s : EventKind) (r : RawHttpReactor W)
    (fs : Option (Nat × W)) (cw : W) :
    FuturePoll × RawHttpReactor W × Option (Nat × W) × List HostCall :=
  let unp :=
    if r.paused then
      (r.set_paused false,
       [match r.phase with
        | ExchangePhase.Request => HostCall.resume_http_request
        | ExchangePhase.Response => HostCall.resume_http_response])
    else (r, ([] : List HostCall))
  let r1 := unp.1
  let calls := unp.2
  if s.rank ≤ r1.current_event.rank then
    match fs with
    | some (id, _) => (.Ready, r1.remove_waker s id, none, calls)
    | none => (.Ready, r1, none, calls)
  else
    match fs with
    | none =>
        let ins := r1.insert_waker s cw
        (.Pending, ins.1, some (ins.2, cw), calls)
    | some (id, w) =>
        if w == cw then
          (.Pending, r1, some (id, w), calls)
        else
          let ins := (r1.remove_waker s id).insert_waker s cw
          (.Pending, ins.1, some (ins.2, cw), calls)

/-- HttpCallResponse from classy/src/client.rs (RequestId modelled as Nat). -/
structure HttpCallResponse where
  request_id : Nat
  num_headers : Nat
  body_size : Nat
  num_trailers : Nat
deriving DecidableEq, Repr

/-- Cid from classy/src/types.rs: either the root (instance) context id or an
http (per-exchange) context id. -/
inductive Cid
  | root (id : Nat)
  | http (id : Nat)
deriving DecidableEq, Repr

/-- RawRootReactor from classy/src/reactor/root.rs with the RefCell wrapper of
RootReactor flattened away.  W is the waker type; C is the typed content
produced by an extractor (Box of dyn Any in the source); boxed extractor
closures are stored directly as functions.  The Rc handles shared between the
handoff slot and the exchange table are modelled by storing the HttpCid in
the slot and the reactor state in the table. -/
structure RawRootReactor (W : Type u) (C : Type v) where
  context_id : Nat
  active_cid : Cid
  context_create_waker : Option W
  new_http_reactor : Option Nat
  http_reactors : List (Nat × RawHttpReactor W)
  extractors : List (Nat × (HttpCallResponse → C))
  clients : List (Nat × W)
  responses : List (Nat × (HttpCallResponse × Option C))
  done : Bool

namespace RawRootReactor

variable {W : Type u} {C : Type v}

/-- RootReactor.new. -/
def new (cid : Nat) : RawRootReactor W C :=
  { context_id := cid
    active_cid := Cid.root cid
    context_create_waker := none
    new_http_reactor := none
    http_reactors := []
    extractors := []
    clients := []
    responses := []
    done := false }

/-- RawRootReactor.current_event: the current event of the active exchange
reactor; None when the active context is the root context or the exchange is
missing from the table. -/
def current_event (s : RawRootReactor W C) : Option EventKind :=
  match s.active_cid with
  | Cid.http id => (mapLookup id s.http_reactors).map (fun r => r.current_event)
  | _ => none

/-- RawRootReactor.set_active_cid. -/
def set_active_cid (s : RawRootReactor W C) (c : Cid) : RawRootReactor W C :=
  { s with active_cid := c }

/-- RawRootReactor.notify_response: remove the extractor for the call id and
apply it to the response, store (response, content) under the id, and wake
the client waker for the id if one is registered (without removing it).
Returns the new state and the list of woken wakers. -/
def notify_response (s : RawRootReactor W C) (resp : HttpCallResponse) :
    RawRootReactor W C × List W :=
  let rid := resp.request_id
  let content := (mapLookup rid s.extractors).map (fun e => e resp)
  let s1 := { s with extractors := mapErase rid s.extractors
                     responses := mapInsert rid (resp, content) s.responses }
  let woken :=
    match mapLookup rid s.clients with
    | some w => [w]
    | none => []
  (s1, woken)

/-- RawRootReactor.insert_create_waker. -/
def insert_create_waker (s : RawRootReactor W C) (w : W) : RawRootReactor W C :=
  { s with context_create_waker := some w }

/-- RawRootReactor.take_create_waker. -/
def take_create_waker (s : RawRootReactor W C) :
    Option W × RawRootReactor W C :=
  (s.context_create_waker, { s with context_create_waker := none })

/-- RawRootReactor.set_paused: forward to the exchange reactor of the given
cid; a root cid or a missing exchange only logs a warning (a no-op here). -/
def set_paused (s : RawRootReactor W C) (c : Cid) (b : Bool) :
    RawRootReactor W C :=
  match c with
  | Cid.root _ => s
  | Cid.http id =>
      match mapLookup id s.http_reactors with
      | some r =>
          { s with http_reactors := mapInsert id (r.set_paused b) s.http_reactors }
      | none => s

/-- RawRootReactor.set_http_context_done: drop the exchange from the table
and point the active cid back at the root context. -/
def set_http_context_done (s : RawRootReactor W C) (id : Nat) :
    RawRootReactor W C :=
  { s with http_reactors := mapErase id s.http_reactors
           active_cid := Cid.root s.context_id }

/-- RawRootReactor.create_http_context: allocate a fresh exchange reactor,
place it in the handoff slot and the table, then wake the registered create
waker by reference; with no registered waker the function returns None by an
early return, after the slot and table were already updated.  Returns the new
state, the woken wakers, and the returned Option (the new HttpCid). -/
def create_http_context (s : RawRootReactor W C) (cid : Nat) :
    RawRootReactor W C × List W × Option Nat :=
  let s1 := { s with new_http_reactor := some cid
                     http_reactors := mapInsert cid RawHttpReactor.new s.http_reactors }
  match s1.context_create_waker with
  | none => (s1, [], none)
  | some w => (s1, [w], some cid)

/-- RawRootReactor.take_new_http_reactor: Option.take on the handoff slot. -/
def take_new_http_reactor (s : RawRootReactor W C) :
    Option Nat × RawRootReactor W C :=
  (s.new_http_reactor, { s with new_http_reactor := none })

/-- RawRootReactor.insert_client. -/
def insert_client (s : RawRootReactor W C) (rid : Nat) (w : W) :
    RawRootReactor W C :=
  { s with clients := mapInsert rid w s.clients }

/-- RawRootReactor.insert_extractor. -/
def insert_extractor (s : RawRootReactor W C) (rid : Nat)
    (e : HttpCallResponse → C) : RawRootReactor W C :=
  { s with extractors := mapInsert rid e s.extractors }

/-- RawRootReactor.remove_extractor. -/
def remove_extractor (s : RawRootReactor W C) (rid : Nat) :
    Option (HttpCallResponse → C) × RawRootReactor W C :=
  (mapLookup rid s.extractors, { s with extractors := mapErase rid s.extractors })

/-- RawRootReactor.remove_client. -/
def remove_client (s : RawRootReactor W C) (rid : Nat) :
    Option W × RawRootReactor W C :=
  (mapLookup rid s.clients, { s with clients := mapErase rid s.clients })

/-- RawRootReactor.take_response (exposed as RootReactor.remove_response). -/
def take_response (s : RawRootReactor W C) (rid : Nat) :
    Option (HttpCallResponse × Option C) × RawRootReactor W C :=
  (mapLookup rid s.responses, { s with responses := mapErase rid s.responses })

/-- RootReactor.set_done. -/
def set_done (s : RawRootReactor W C) : RawRootReactor W C :=
  { s with done := true }

end RawRootReactor

namespace Request

variable {W : Type u} {C : Type v}

/-- Drop impl of Request in classy/src/client.rs: remove the extractor, the
stored response, and the client waker of this call id from the instance
reactor, in that order. -/
def drop (s : RawRootReactor W C) (rid : Nat) : RawRootReactor W C :=
  let s1 := (s.remove_extractor rid).2
  let s2 := (s1.take_response rid).2
  (s2.remove_client rid).2

/-- Result of polling a Request future.  ReadyError is
Ready(Err(AwaitedOnCreateContext)); Panic marks a reachable expect failure
(a stored response with no extracted content, or a missing client entry on
waker replacement). -/
inductive Poll (C : Type v)
  | ReadyError
  | ReadyOk (content : C)
  | Panic
  | Pending
deriving DecidableEq, Repr

/-- Future poll of Request in classy/src/client.rs.  fs is the mutable
cid_and_waker field, cw the waker of the polling context.  Returns the poll
result, the updated instance reactor, and the updated cid_and_waker. -/
def poll [BEq W] (s : RawRootReactor W C) (rid : Nat)
    (fs : Option (Cid × W)) (cw : W) :
    Poll C × RawRootReactor W C × Option (Cid × W) :=
  if s.current_event = some EventKind.Start then
    (.ReadyError, s, fs)
  else
    match s.take_response rid with
    | (some pr, s1) =>
        match pr.2 with
        | none => (.Panic, s1, fs)
        | some c => (.ReadyOk c, s1, fs)
    | (none, _) =>
        match fs with
        | none =>
            let cid := s.active_cid
            let s1 := s.insert_client rid cw
            let s2 := s1.set_paused cid true
            (.Pending, s2, some (cid, cw))
        | some (cid, w) =>
            if w == cw then
              (.Pending, s, some (cid, w))
            else
              match s.remove_client rid with
              | (none, _) => (.Panic, s, fs)
              | (some _, s1) =>
                  (.Pending, s1.insert_client rid cw, some (cid, cw))

end Request

/-- ConfigurationState from classy/src/context/root.rs (the error payload of
Failed is irrelevant to the modelled control flow). -/
inductive ConfigurationState
  | Started
  | Finished
  | Failed
deriving DecidableEq, Repr

/-- Action from proxy-wasm: the directive a synchronous callback returns. -/
inductive Action
  | Continue
  | Pause
deriving DecidableEq, Repr

/-- The kind of HttpContext handed back by the instance adapter. -/
inductive CreatedContext
  | errorContext
  | asyncHttpContext (cid : Nat)
deriving DecidableEq, Repr

/-- ErrorContext.on_http_request_event from classy/src/context/error.rs:
log a warning, send an immediate 503 response with no headers and no body,
and return Pause. -/
def ErrorContext.on_http_request_event : HostCall × Action :=
  (HostCall.send_http_response 503 [] none, Action.Pause)

/-- ErrorContext.on_http_request_headers delegates to on_http_request_event. -/
def ErrorContext.on_http_request_headers : HostCall × Action :=
  ErrorContext.on_http_request_event

/-- ErrorContext.on_http_request_body delegates to on_http_request_event. -/
def ErrorContext.on_http_request_body : HostCall × Action :=
  ErrorContext.on_http_request_event

/-- ErrorContext.on_http_request_trailers delegates to on_http_request_event. -/
def ErrorContext.on_http_request_trailers : HostCall × Action :=
  ErrorContext.on_http_request_event

/-- AsyncRootContext.create_http_context from classy/src/context/root.rs.
In states Failed and Finished an ErrorContext is handed back at once.  In
state Started the root reactor creates the exchange; when that returns None
(no registered create waker) an ErrorContext is handed back, otherwise the
active cid is set to the new exchange, the scheduler drain runs
(run_until_stalled executes queued tasks and is outside this state model),
a live AsyncHttpContext is built and the active cid is set back to the root.
Returns the context kind, the new reactor state and the woken wakers. -/
def AsyncRootContext.create_http_context {W : Type u} {C : Type v}
    (st : ConfigurationState) (s : RawRootReactor W C) (cid : Nat) :
    CreatedContext × RawRootReactor W C × List W :=
  match st with
  | .Failed => (.errorContext, s, [])
  | .Finished => (.errorContext, s, [])
  | .Started =>
      match s.create_http_context cid with
      | (s1, woken, none) => (.errorContext, s1, woken)
      | (s1, woken, some _) =>
          let s2 := s1.set_active_cid (Cid.http cid)
          let s3 := s2.set_active_cid (Cid.root s.context_id)
          (.asyncHttpContext cid, s3, woken)

/-! Helper lemmas about the per-exchange reactor operations. -/

@[simp]
theorem set_paused_current_event {W : Type u} (r : RawHttpReactor W) (b : Bool) :
    (r.set_paused b).current_event = r.current_event := by
  unfold RawHttpReactor.set_paused
  split <;> rfl

@[simp]
theorem set_paused_wakers {W : Type u} (r : RawHttpReactor W) (b : Bool) :
    (r.set_paused b).wakers = r.wakers := by
  unfold RawHttpReactor.set_paused
  split <;> rfl

@[simp]
theorem set_paused_id_generator {W : Type u} (r : RawHttpReactor W) (b : Bool) :
    (r.set_paused b).id_generator = r.id_generator := by
  unfold RawHttpReactor.set_paused
  split <;> rfl

theorem set_paused_true_paused {W : Type u} (r : RawHttpReactor W) :
    (r.set_paused true).paused = true := by
  unfold RawHttpReactor.paused RawHttpReactor.set_paused RawHttpReactor.phase
  cases h : phaseOf r.current_event <;> simp [h]

theorem cancel_request_paused {W : Type u} (r : RawHttpReactor W) :
    (r.cancel_request).paused = r.paused := rfl

/-- Example reactor used by concrete witnesses: two registered wakers at
different stages. -/
def exampleHttpReactor : RawHttpReactor Nat :=
  { (RawHttpReactor.new : RawHttpReactor Nat) with
      id_generator := 2
      wakers := [((EventKind.RequestHeaders, 0), 3), ((EventKind.ResponseHeaders, 1), 4)] }

/-- C2: notify(s) sets the recorded current stage to s and wakes exactly the
wakers registered under stage s: every waker registered for s is woken, no
waker registered for another stage is woken, and the registry itself is left
unchanged. -/
theorem notify_wakes_exactly_stage {W : Type u} (r : RawHttpReactor W)
    (e : EventKind) :
    (r.notify e).1.current_event = e
    ∧ (r.notify e).1.wakers = r.wakers
    ∧ (∀ id w, ((e, id), w) ∈ r.wakers → w ∈ (r.notify e).2)
    ∧ (∀ w, w ∈ (r.notify e).2 → ∃ id, ((e, id), w) ∈ r.wakers) := by
  refine ⟨rfl, rfl, ?_, ?_⟩
  · intro id w hw
    exact List.mem_map.mpr ⟨((e, id), w), List.mem_filter.mpr ⟨hw, by simp⟩, rfl⟩
  · intro w hw
    rcases List.mem_map.mp hw with ⟨⟨⟨a, b⟩, w0⟩, hp, hpw⟩
    rcases List.mem_filter.mp hp with ⟨hmem, hcond⟩
    have ha : a = e := by simpa using hcond
    subst ha
    cases hpw
    exact ⟨b, hmem⟩

/-- Witness for C2 at a concrete reactor: the waker registered under
RequestHeaders is woken by notify(RequestHeaders). -/
theorem notify_wakes_exactly_stage_witness :
    3 ∈ (exampleHttpReactor.notify EventKind.RequestHeaders).2
    ∧ ∃ id, ((EventKind.RequestHeaders, id), 3) ∈ exampleHttpReactor.wakers := by
  have h := notify_wakes_exactly_stage exampleHttpReactor EventKind.RequestHeaders
  have h3 : 3 ∈ (exampleHttpReactor.notify EventKind.RequestHeaders).2 :=
    h.2.2.1 0 3 (by decide)
  exact ⟨h3, h.2.2.2 3 h3⟩

/-- C3: event_data() on an Exchange of stage S is populated (Some) iff the
reactor currently records exactly stage S; after notify moves the reactor to
stage e, event_data() for S is populated iff e = S, so it is None once the
reactor has moved to a different stage. -/
theorem event_data_iff_exact_stage {W : Type u} (s : EventKind)
    (r : RawHttpReactor W) :
    ((Exchange.event_data s r).isSome ↔ r.current_event = s)
    ∧ (∀ e, ((Exchange.event_data s ((r.notify e).1)).isSome ↔ e = s)) := by
  constructor
  · by_cases h : r.current_event = s <;> simp [Exchange.event_data, h]
  · intro e
    by_cases h : e = s <;> simp [Exchange.event_data, RawHttpReactor.notify, h]

/-- Witness for C3 at a concrete reactor: after notify(RequestHeaders) the
event data for RequestHeaders is present and the data for RequestBody is
absent; after a further notify(RequestBody) the data for RequestHeaders is
absent. -/
theorem event_data_iff_exact_stage_witness :
    (Exchange.event_data EventKind.RequestHeaders
        (((RawHttpReactor.new : RawHttpReactor Nat)).notify
          EventKind.RequestHeaders).1).isSome = true
    ∧ (Exchange.event_data EventKind.RequestBody
        (((RawHttpReactor.new : RawHttpReactor Nat)).notify
          EventKind.RequestHeaders).1).isSome = false
    ∧ (Exchange.event_data EventKind.RequestHeaders
        ((((RawHttpReactor.new : RawHttpReactor Nat)).notify
            EventKind.RequestHeaders).1.notify EventKind.RequestBody).1).isSome
        = false := by
  refine ⟨?_, ?_, ?_⟩
  · exact ((event_data_iff_exact_stage EventKind.RequestHeaders
      (RawHttpReactor.new : RawHttpReactor Nat)).2 EventKind.RequestHeaders).mpr rfl
  · have h2 := (event_data_iff_exact_stage EventKind.RequestBody
      (RawHttpReactor.new : RawHttpReactor Nat)).2 EventKind.RequestHeaders
    cases hb : (Exchange.event_data EventKind.RequestBody
        (((RawHttpReactor.new : RawHttpReactor Nat)).notify
          EventKind.RequestHeaders).1).isSome
    · rfl
    · exact absurd (h2.mp hb) (by decide)
  · have h3 := (event_data_iff_exact_stage EventKind.RequestHeaders
      (((RawHttpReactor.new : RawHttpReactor Nat)).notify
        EventKind.RequestHeaders).1).2 EventKind.RequestBody
    cases hb : (Exchange.event_data EventKind.RequestHeaders
        ((((RawHttpReactor.new : RawHttpReactor Nat)).notify
            EventKind.RequestHeaders).1.notify EventKind.RequestBody).1).isSome
    · rfl
    · exact absurd (h3.mp hb) (by decide)

/-- C4: the trait window of send_response is exactly the stages strictly
between Start and ResponseHeaders (RequestHeaders, RequestBody,
RequestTrailers), and calling send_response sets the pause flag of the
current phase, sets the cancelled flag, and emits the synthetic response. -/
theorem send_response_window_and_flags {W : Type u} :
    (∀ s : EventKind, (sendResponseCallable s = true ↔
        (s = EventKind.RequestHeaders ∨ s = EventKind.RequestBody
          ∨ s = EventKind.RequestTrailers)))
    ∧ ∀ (r : RawHttpReactor W) (st : Nat) (hs : List (String × String))
        (b : Option (List Nat)),
        (Exchange.send_response r st hs b).1.paused = true
        ∧ (Exchange.send_response r st hs b).1.cancelled_request = true
        ∧ (Exchange.send_response r st hs b).2
            = HostCall.send_http_response st hs b := by
  constructor
  · decide
  · intro r st hs b
    refine ⟨?_, rfl, rfl⟩
    show ((r.set_paused true).cancel_request).paused = true
    rw [cancel_request_paused]
    exact set_paused_true_paused r

/-- C1: for every stage s awaited by an ExchangeFuture, a poll returns Ready
iff the current stage of the reactor is at least s; a first poll below s returns
Pending and leaves the context waker registered under exactly stage s.  In
particular, after notify(RequestHeaders) a future awaiting ResponseHeaders
polls Pending, a subsequent notify(ResponseHeaders) wakes the registered
waker, and the next poll returns Ready. -/
theorem exchangeFuture_poll_spec {W : Type u} [BEq W] (s : EventKind)
    (r : RawHttpReactor W) (fs : Option (Nat × W)) (cw : W) :
    ((ExchangeFuture.poll s r fs cw).1 = FuturePoll.Ready ↔
        s.rank ≤ r.current_event.rank)
    ∧ (r.current_event.rank < s.rank → fs = none →
        (ExchangeFuture.poll s r fs cw).2.2.1 = some (r.id_generator, cw)
        ∧ mapLookup (s, r.id_generator)
            (ExchangeFuture.poll s r fs cw).2.1.wakers = some cw
        ∧ (ExchangeFuture.poll s r fs cw).2.1.wakers
            = mapInsert (s, r.id_generator) cw r.wakers)
    ∧ (ExchangeFuture.poll EventKind.ResponseHeaders
        (((RawHttpReactor.new : RawHttpReactor Nat)).notify
          EventKind.RequestHeaders).1 none 7).1 = FuturePoll.Pending
    ∧ 7 ∈ (((ExchangeFuture.poll EventKind.ResponseHeaders
        (((RawHttpReactor.new : RawHttpReactor Nat)).notify
          EventKind.RequestHeaders).1 none 7).2.1.notify
            EventKind.ResponseHeaders).2)
    ∧ (ExchangeFuture.poll EventKind.ResponseHeaders
        (((ExchangeFuture.poll EventKind.ResponseHeaders
            (((RawHttpReactor.new : RawHttpReactor Nat)).notify
              EventKind.RequestHeaders).1 none 7).2.1.notify
                EventKind.ResponseHeaders).1)
        (ExchangeFuture.poll EventKind.ResponseHeaders
          (((RawHttpReactor.new : RawHttpReactor Nat)).notify
            EventKind.RequestHeaders).1 none 7).2.2.1 7).1
        = FuturePoll.Ready := by
  refine ⟨?_, ?_, by decide, by decide, by decide⟩
  · by_cases hle : s.rank ≤ r.current_event.rank
    · simp only [ExchangeFuture.poll]
      by_cases hp : r.paused <;>
        rcases fs with _ | ⟨id, w⟩ <;>
          simp [hp, hle]
    · simp only [ExchangeFuture.poll]
      rcases fs with _ | ⟨id, w⟩
      · by_cases hp : r.paused <;> simp [hp, hle]
      · by_cases hp : r.paused <;> by_cases hw : w == cw <;> simp [hp, hle, hw]
  · intro hlt hfs
    subst hfs
    have hnle : ¬ s.rank ≤ r.current_event.rank := by omega
    simp only [ExchangeFuture.poll]
    by_cases hp : r.paused <;>
      simp [hp, hnle, RawHttpReactor.insert_waker, mapLookup_insert_self]

/-- Witness for C1: at a concrete reactor below the awaited stage, the first
poll records the freshly generated waker id with the context waker. -/
theorem exchangeFuture_poll_spec_witness :
    (ExchangeFuture.poll EventKind.ResponseHeaders
        (((RawHttpReactor.new : RawHttpReactor Nat)).notify
          EventKind.RequestHeaders).1 none 7).2.2.1 = some (0, 7) := by
  have h := exchangeFuture_poll_spec EventKind.ResponseHeaders
    (((RawHttpReactor.new : RawHttpReactor Nat)).notify
      EventKind.RequestHeaders).1 none 7
  exact (h.2.1 (by decide) rfl).1

/-- Example instance reactor used by concrete inputs: fresh root reactor with
one registered client waker (42) for call id 7 and no extractor. -/
def exampleRootClientOnly : RawRootReactor Nat Nat :=
  { (RawRootReactor.new 1 : RawRootReactor Nat Nat) with clients := [(7, 42)] }

/-- Example outbound-call response for call id 7. -/
def exampleResponse : HttpCallResponse :=
  { request_id := 7, num_headers := 2, body_size := 11, num_trailers := 0 }

/-- C5 counterexample: on a reactor with no extractor for call id 7 but a
registered client waker, notify_response is not a no-op: it wakes the client
waker and stores (response, none) in the responses map. -/
theorem notify_response_without_extractor_cex :
    (mapLookup 7 exampleRootClientOnly.extractors).isSome = false
    ∧ (exampleRootClientOnly.notify_response exampleResponse).2 = [42]
    ∧ mapLookup 7
        (exampleRootClientOnly.notify_response exampleResponse).1.responses
        = some (exampleResponse, none) := by
  refine ⟨rfl, rfl, ?_⟩
  simp [RawRootReactor.notify_response, exampleRootClientOnly, exampleResponse,
    RawRootReactor.new, mapLookup_insert_self, mapLookup]

/-- C5 amended: for a call id with no registered extractor, notify_response
still stores (response, none) under that id in the responses map and still
wakes the client waker registered for the id if any; it wakes nothing only
when no client waker is registered. -/
theorem notify_response_without_extractor_amended {W : Type u} {C : Type v}
    (s : RawRootReactor W C) (resp : HttpCallResponse)
    (h : mapLookup resp.request_id s.extractors = none) :
    mapLookup resp.request_id (s.notify_response resp).1.responses
      = some (resp, none)
    ∧ (s.notify_response resp).2 =
        (match mapLookup resp.request_id s.clients with
         | some w => [w]
         | none => [])
    ∧ (mapLookup resp.request_id s.clients = none →
        (s.notify_response resp).2 = []) := by
  refine ⟨?_, rfl, ?_⟩
  · simp [RawRootReactor.notify_response, h, mapLookup_insert_self]
  · intro hc
    simp [RawRootReactor.notify_response, hc]

/-- Witness for the amended C5 at the concrete reactor: the stored entry has
no extracted content and the registered client waker is woken. -/
theorem notify_response_without_extractor_amended_witness :
    mapLookup 7 (exampleRootClientOnly.notify_response exampleResponse).1.responses
      = some (exampleResponse, none)
    ∧ (exampleRootClientOnly.notify_response exampleResponse).2 = [42] := by
  have h := notify_response_without_extractor_amended exampleRootClientOnly
    exampleResponse rfl
  exact ⟨h.1, h.2.1.trans rfl⟩

/-- C6: dropping an outbound call removes its entries from all three maps of
the instance reactor (extractor, client waker, stored response), whatever
states those maps are in; a response delivered for that call id afterwards
wakes no waker (and the modelled notify_response is total, so no panic is
reachable in it). -/
theorem request_drop_removes_all_entries {W : Type u} {C : Type v}
    (s : RawRootReactor W C) (resp : HttpCallResponse) :
    mapLookup resp.request_id (Request.drop s resp.request_id).extractors = none
    ∧ mapLookup resp.request_id (Request.drop s resp.request_id).clients = none
    ∧ mapLookup resp.request_id (Request.drop s resp.request_id).responses = none
    ∧ ((Request.drop s resp.request_id).notify_response resp).2 = [] := by
  unfold Request.drop RawRootReactor.remove_extractor RawRootReactor.take_response
    RawRootReactor.remove_client RawRootReactor.notify_response
  simp [mapLookup_erase_self]

/-- C9: create_http_context stores a fresh exchange reactor in the table
under the new id, places the id in the single handoff slot, wakes exactly
the registered create waker if there is one, and the handoff slot yields the
new reactor exactly once: a second take before the next creation is empty. -/
theorem create_http_context_handoff_spec {W : Type u} {C : Type v}
    (s : RawRootReactor W C) (cid : Nat) :
    mapLookup cid (s.create_http_context cid).1.http_reactors
      = some RawHttpReactor.new
    ∧ (s.create_http_context cid).1.new_http_reactor = some cid
    ∧ (s.create_http_context cid).2.1 = s.context_create_waker.toList
    ∧ ((s.create_http_context cid).1.take_new_http_reactor).1 = some cid
    ∧ (((s.create_http_context cid).1.take_new_http_reactor).2.take_new_http_reactor).1
        = none := by
  unfold RawRootReactor.create_http_context RawRootReactor.take_new_http_reactor
  cases hcw : s.context_create_waker <;>
    simp [hcw, mapLookup_insert_self, Option.toList]

/-- Example exchange reactor that has received RequestHeaders. -/
def exampleReactorAtRequestHeaders : RawHttpReactor Nat :=
  (((RawHttpReactor.new : RawHttpReactor Nat)).notify EventKind.RequestHeaders).1

/-- Example instance reactor whose active context is exchange 5, which has
received RequestHeaders. -/
def exampleRootActive : RawRootReactor Nat Nat :=
  { (RawRootReactor.new 1 : RawRootReactor Nat Nat) with
      active_cid := Cid.http 5
      http_reactors := [(5, exampleReactorAtRequestHeaders)] }

/-- C7: the first poll of an outbound-call future with no stored response,
while the active context is an exchange present in the table that has moved
past Start, records the (active exchange cid, waker) pair, registers the
waker as the client for the call id, sets the pause flag of the active
exchange for its current phase, and returns Pending. -/
theorem request_first_poll_pauses_active_exchange {W : Type u} {C : Type v}
    [BEq W] (s : RawRootReactor W C) (rid hid : Nat) (r : RawHttpReactor W)
    (cw : W)
    (hcid : s.active_cid = Cid.http hid)
    (hr : mapLookup hid s.http_reactors = some r)
    (hstart : r.current_event ≠ EventKind.Start)
    (hresp : mapLookup rid s.responses = none) :
    (Request.poll s rid none cw).1 = Request.Poll.Pending
    ∧ (Request.poll s rid none cw).2.2 = some (Cid.http hid, cw)
    ∧ mapLookup rid (Request.poll s rid none cw).2.1.clients = some cw
    ∧ mapLookup hid (Request.poll s rid none cw).2.1.http_reactors
        = some (r.set_paused true)
    ∧ (r.set_paused true).paused = true := by
  have hce : s.current_event = some r.current_event := by
    unfold RawRootReactor.current_event
    rw [hcid]
    simp [hr]
  have hne : ¬ s.current_event = some EventKind.Start := by
    rw [hce]
    intro hx
    exact hstart (Option.some_injective _ hx)
  unfold Request.poll
  rw [if_neg hne]
  simp only [RawRootReactor.take_response, hresp]
  simp only [RawRootReactor.insert_client, RawRootReactor.set_paused, hcid]
  simp [hr, mapLookup_insert_self, set_paused_true_paused r]

/-- Witness for C7 at a concrete instance reactor with one active exchange
at RequestHeaders. -/
theorem request_first_poll_pauses_active_exchange_witness :
    (Request.poll exampleRootActive 9 none 3).1 = Request.Poll.Pending
    ∧ mapLookup 5 (Request.poll exampleRootActive 9 none 3).2.1.http_reactors
        = some (exampleReactorAtRequestHeaders.set_paused true) := by
  have h := request_first_poll_pauses_active_exchange exampleRootActive 9 5
    exampleReactorAtRequestHeaders 3 rfl rfl (by decide) rfl
  exact ⟨h.1, h.2.2.2.1⟩

/-- C8 counterexample: polling an outbound-call future while the active
context is the root (configuration) context does not resolve to the
AwaitedOnCreateContext error: on a fresh instance reactor (active cid is the
root context) with no stored response, the poll returns Pending and registers
the client waker. -/
theorem request_poll_root_context_cex :
    (RawRootReactor.new 1 : RawRootReactor Nat Nat).active_cid = Cid.root 1
    ∧ (Request.poll (RawRootReactor.new 1 : RawRootReactor Nat Nat) 9 none 3).1
        ≠ Request.Poll.ReadyError
    ∧ (Request.poll (RawRootReactor.new 1 : RawRootReactor Nat Nat) 9 none 3).1
        = Request.Poll.Pending
    ∧ mapLookup 9
        (Request.poll (RawRootReactor.new 1 : RawRootReactor Nat Nat) 9 none 3).2.1.clients
        = some 3 := by
  refine ⟨rfl, ?_, rfl, rfl⟩
  intro hx
  exact Request.Poll.noConfusion (rfl.trans hx :
    Request.Poll.Pending = (Request.Poll.ReadyError : Request.Poll Nat))

/-- C8 amended: the poll of an outbound-call future resolves immediately to
the AwaitedOnCreateContext error exactly when current_event of the instance
reactor is Some(Start), i.e. when the active context is an exchange
context still at stage Start; when the active context is the root context,
current_event is None, so a first poll with no stored response instead
registers the client waker, records (root cid, waker), leaves every exchange
reactor untouched (set_paused on a root cid is a logged no-op), and returns
Pending. -/
theorem request_poll_create_context_amended {W : Type u} {C : Type v} [BEq W]
    (s : RawRootReactor W C) (rid : Nat) (fs : Option (Cid × W)) (cw : W) :
    (s.current_event = some EventKind.Start →
        Request.poll s rid fs cw = (Request.Poll.ReadyError, s, fs))
    ∧ (∀ i, s.active_cid = Cid.root i → mapLookup rid s.responses = none →
        (Request.poll s rid none cw).1 = Request.Poll.Pending
        ∧ (Request.poll s rid none cw).2.2 = some (Cid.root i, cw)
        ∧ mapLookup rid (Request.poll s rid none cw).2.1.clients = some cw
        ∧ (Request.poll s rid none cw).2.1.http_reactors = s.http_reactors) := by
  constructor
  · intro h
    unfold Request.poll
    rw [if_pos h]
  · intro i hcid hresp
    have hce : s.current_event = none := by
      unfold RawRootReactor.current_event
      rw [hcid]
    have hne : ¬ s.current_event = some EventKind.Start := by
      rw [hce]
      exact Option.noConfusion
    unfold Request.poll
    rw [if_neg hne]
    simp only [RawRootReactor.take_response, hresp]
    simp only [RawRootReactor.insert_client, RawRootReactor.set_paused, hcid]
    simp [mapLookup_insert_self]

/-- Witness for the amended C8: an exchange context still at Start yields the
error, while the fresh root context yields Pending. -/
theorem request_poll_create_context_amended_witness :
    Request.poll
        ({ (RawRootReactor.new 1 : RawRootReactor Nat Nat) with
            active_cid := Cid.http 4
            http_reactors := [(4, RawHttpReactor.new)] }) 9 none 3
      = (Request.Poll.ReadyError,
          { (RawRootReactor.new 1 : RawRootReactor Nat Nat) with
              active_cid := Cid.http 4
              http_reactors := [(4, RawHttpReactor.new)] }, none)
    ∧ (Request.poll (RawRootReactor.new 1 : RawRootReactor Nat Nat) 9 none 3).1
        = Request.Poll.Pending := by
  constructor
  · exact (request_poll_create_context_amended
      ({ (RawRootReactor.new 1 : RawRootReactor Nat Nat) with
          active_cid := Cid.http 4
          http_reactors := [(4, RawHttpReactor.new)] }) 9 none 3).1 rfl
  · exact ((request_poll_create_context_amended
      (RawRootReactor.new 1 : RawRootReactor Nat Nat) 9 none 3).2 1 rfl rfl).1

/-- C10: the raw create_http_context returns None exactly when no create
waker is registered at the time of the call, although the new reactor was
already inserted into the table and the handoff slot; in that case the
instance adapter in state Started hands back the synthetic ErrorContext,
whose request-phase handlers each send an immediate 503 response and return
the Pause directive. -/
theorem create_http_context_none_iff_no_waker {W : Type u} {C : Type v}
    (s : RawRootReactor W C) (cid : Nat) :
    ((s.create_http_context cid).2.2 = none ↔ s.context_create_waker = none)
    ∧ mapLookup cid (s.create_http_context cid).1.http_reactors
        = some RawHttpReactor.new
    ∧ (s.create_http_context cid).1.new_http_reactor = some cid
    ∧ (s.context_create_waker = none →
        (AsyncRootContext.create_http_context ConfigurationState.Started s cid).1
          = CreatedContext.errorContext)
    ∧ ErrorContext.on_http_request_headers
        = (HostCall.send_http_response 503 [] none, Action.Pause)
    ∧ ErrorContext.on_http_request_body
        = (HostCall.send_http_response 503 [] none, Action.Pause)
    ∧ ErrorContext.on_http_request_trailers
        = (HostCall.send_http_response 503 [] none, Action.Pause) := by
  refine ⟨?_, ?_, ?_, ?_, rfl, rfl, rfl⟩
  · unfold RawRootReactor.create_http_context
    cases hcw : s.context_create_waker <;> simp [hcw]
  · unfold RawRootReactor.create_http_context
    cases hcw : s.context_create_waker <;> simp [hcw, mapLookup_insert_self]
  · unfold RawRootReactor.create_http_context
    cases hcw : s.context_create_waker <;> simp [hcw]
  · intro hcw
    unfold AsyncRootContext.create_http_context RawRootReactor.create_http_context
    simp [hcw]

/-- Witness for C10: the fresh instance reactor has no create waker, so the
adapter in state Started hands back the error context. -/
theorem create_http_context_none_iff_no_waker_witness :
    (AsyncRootContext.create_http_context ConfigurationState.Started
        (RawRootReactor.new 1 : RawRootReactor Nat Nat) 5).1
      = CreatedContext.errorContext := by
  exact (create_http_context_none_iff_no_waker
    (RawRootReactor.new 1 : RawRootReactor Nat Nat) 5).2.2.2.1 rfl

end Classy
